import Mathlib

/-!
Verification of the Merkle audit-proof verifier in `merkle_proof.py` of
`zayaanra/artifact-signer`.

Shallow embedding conventions:
* Python `bytes` values are `List Nat` (one entry per byte).
* Python integers are `Nat` (all integers in this code are non-negative;
  the single negation `-sizes[0]` is embedded through the two's-complement
  identity, see `pylowbit`).
* `raise`/`return` control flow becomes `Except PyExc`.  A Python
  `ValueError msg` is `PyExc.valueError msg` and `RootMismatchError` is
  `PyExc.rootMismatch`; a `ValueError` raised inside the library call
  `bytes.fromhex` is modelled as the separate constructor `PyExc.hexError`
  (its message is produced by CPython, not by this repository's code).
* The pluggable `hash_func` of the `Hasher` class is a function
  `List Nat → List Nat` together with its declared digest size.
-/

/-- Python `bytes`: a list of byte values. -/
abbrev Bytes := List Nat

/-- Exceptions escaping the functions of `merkle_proof.py`. -/
inductive PyExc where
  | valueError (msg : String)
  | rootMismatch (expected calculated : Bytes)
  | hexError
  deriving DecidableEq

/- ### Python integer primitives -/

/-- Fuel-driven implementation of Python `int.bit_length`. -/
def bit_length_fuel : Nat → Nat → Nat
  | _, 0 => 0
  | 0, _ + 1 => 0
  | fuel + 1, n + 1 => bit_length_fuel fuel ((n + 1) / 2) + 1

/-- Python `n.bit_length()` for a non-negative `n`: the number of binary
digits of `n`, with `bit_length 0 = 0`. -/
def bit_length (n : Nat) : Nat := bit_length_fuel n n

/-- Fuel-driven implementation of `bin(n).count("1")`. -/
def popcount_fuel : Nat → Nat → Nat
  | _, 0 => 0
  | 0, _ + 1 => 0
  | fuel + 1, n + 1 => popcount_fuel fuel ((n + 1) / 2) + (n + 1) % 2

/-- Python `bin(n).count("1")`: the number of set bits of `n`. -/
def popcount (n : Nat) : Nat := popcount_fuel n n

/-- Python `n & -n` for `n > 0` (the lowest set bit of `n`).  Python
integers are infinite two's complement; since `n` has no set bit at or
above position `bit_length n`, masking with the low `bit_length n` bits of
`-n`, i.e. with `2 ^ bit_length n - n`, gives exactly `n & -n`. -/
def pylowbit (n : Nat) : Nat := n &&& (2 ^ bit_length n - n)

/- ### Hex decoding (`bytes.fromhex`) and encoding (`bytes.hex`) -/

/-- Value of one hexadecimal digit, as accepted by `bytes.fromhex`. -/
def hexDigitVal (c : Char) : Option Nat :=
  if '0' ≤ c ∧ c ≤ '9' then some (c.toNat - '0'.toNat)
  else if 'a' ≤ c ∧ c ≤ 'f' then some (c.toNat - 'a'.toNat + 10)
  else if 'A' ≤ c ∧ c ≤ 'F' then some (c.toNat - 'A'.toNat + 10)
  else none

/-- Decodes a list of characters, two hex digits per byte. -/
def hexPairs : List Char → Option Bytes
  | [] => some []
  | [_] => none
  | c1 :: c2 :: rest =>
    match hexDigitVal c1, hexDigitVal c2, hexPairs rest with
    | some hi, some lo, some bs => some ((16 * hi + lo) :: bs)
    | _, _, _ => none

/-- Python `bytes.fromhex`: an even number of hex digits, two per byte.
(CPython additionally skips ASCII whitespace between bytes; no claim
depends on that, so whitespace-free strings are modelled.) -/
def bytes_fromhex (s : String) : Option Bytes := hexPairs s.data

/-- Lowercase hex digit of a value below 16. -/
def hexDigitChar (v : Nat) : Char :=
  if v < 10 then Char.ofNat ('0'.toNat + v) else Char.ofNat ('a'.toNat + v - 10)

/-- Python `bytes.hex()` / `hashlib` `hexdigest()`: two lowercase hex
digits per byte. -/
def bytes_hex (bs : Bytes) : String :=
  String.mk (bs.flatMap (fun b => [hexDigitChar (b / 16 % 16), hexDigitChar (b % 16)]))

/-- Decodes every element of a list of hex strings, as the loops
`for elem in proof: bytearray_proof.append(bytes.fromhex(elem))` do. -/
def fromhexList : List String → Option (List Bytes)
  | [] => some []
  | s :: rest =>
    match bytes_fromhex s, fromhexList rest with
    | some b, some bs => some (b :: bs)
    | _, _ => none

/- ### The `Hasher` class -/

/-- The `Hasher` class of `merkle_proof.py`: a pluggable hash function
(`update`/`digest` folded into one map from input bytes to digest bytes)
together with the `digest_size` that function reports. -/
structure Hasher where
  hashFunc : Bytes → Bytes
  digestSize : Nat

/-- `Hasher.empty_root`: digest of the empty input. -/
def Hasher.empty_root (h : Hasher) : Bytes := h.hashFunc []

/-- `Hasher.hash_leaf`: digest of `RFC6962_LEAF_HASH_PREFIX` (the byte 0)
followed by the leaf bytes. -/
def Hasher.hash_leaf (h : Hasher) (leaf : Bytes) : Bytes :=
  h.hashFunc ([0] ++ leaf)

/-- `Hasher.hash_children`: digest of `RFC6962_NODE_HASH_PREFIX` (the
byte 1) followed by the left then the right child. -/
def Hasher.hash_children (h : Hasher) (left right : Bytes) : Bytes :=
  h.hashFunc ([1] ++ left ++ right)

/-- `Hasher.size`: the digest size of the hash function. -/
def Hasher.size (h : Hasher) : Nat := h.digestSize

/- ### Proof-shape decomposition -/

/-- `inner_proof_size(index, size) = (index ^ (size - 1)).bit_length()`. -/
def inner_proof_size (index size : Nat) : Nat :=
  bit_length (index ^^^ (size - 1))

/-- `decomp_incl_proof(index, size)`: the inner size and the popcount of
`index >> inner`. -/
def decomp_incl_proof (index size : Nat) : Nat × Nat :=
  (inner_proof_size index size,
   popcount (index >>> inner_proof_size index size))

/- ### Hash chaining -/

/-- Loop body of `chain_inner`, carrying the loop counter `i` of
`enumerate(proof)`. -/
def chain_inner_go (hasher : Hasher) (seed : Bytes) (proof : List Bytes)
    (index i : Nat) : Bytes :=
  match proof with
  | [] => seed
  | h :: rest =>
    chain_inner_go hasher
      (if (index >>> i) &&& 1 = 0 then hasher.hash_children seed h
       else hasher.hash_children h seed)
      rest index (i + 1)

/-- `chain_inner(hasher, seed, proof, index)`: folds every proof element
into the seed, on the left or the right as bit `i` of `index` directs. -/
def chain_inner (hasher : Hasher) (seed : Bytes) (proof : List Bytes)
    (index : Nat) : Bytes :=
  chain_inner_go hasher seed proof index 0

/-- Loop body of `chain_inner_right`. -/
def chain_inner_right_go (hasher : Hasher) (seed : Bytes) (proof : List Bytes)
    (index i : Nat) : Bytes :=
  match proof with
  | [] => seed
  | h :: rest =>
    chain_inner_right_go hasher
      (if (index >>> i) &&& 1 = 1 then hasher.hash_children h seed else seed)
      rest index (i + 1)

/-- `chain_inner_right(hasher, seed, proof, index)`: folds a proof element
into the seed (element on the left) only where bit `i` of `index` is 1;
elements at 0 bits are skipped but still advance the bit position. -/
def chain_inner_right (hasher : Hasher) (seed : Bytes) (proof : List Bytes)
    (index : Nat) : Bytes :=
  chain_inner_right_go hasher seed proof index 0

/-- `chain_border_right(hasher, seed, proof)`: folds every element with
the accumulated seed as the right child. -/
def chain_border_right (hasher : Hasher) (seed : Bytes) (proof : List Bytes) : Bytes :=
  proof.foldl (fun s h => hasher.hash_children h s) seed

/- ### Root comparison -/

/-- `verify_match(calculated, expected)`: raises `RootMismatchError`
(which stores expected then calculated) unless the two digests are
equal. -/
def verify_match (calculated expected : Bytes) : Except PyExc Unit :=
  if calculated ≠ expected then .error (.rootMismatch expected calculated)
  else .ok ()

/- ### Inclusion proofs -/

/-- `root_from_inclusion_proof(hasher, index, size, leaf_hash, proof)`:
validates index, leaf-hash length and proof length, then chains the leaf
hash through the inner and border phases. -/
def root_from_inclusion_proof (hasher : Hasher) (index size : Nat)
    (leaf_hash : Bytes) (proof : List Bytes) : Except PyExc Bytes :=
  if index ≥ size then
    .error (.valueError
      ("index is beyond size: " ++ toString index ++ " >= " ++ toString size))
  else if leaf_hash.length ≠ hasher.size then
    .error (.valueError
      ("leaf_hash has unexpected size " ++ toString leaf_hash.length ++
        ", want " ++ toString hasher.size))
  else
    let inner := (decomp_incl_proof index size).1
    let border := (decomp_incl_proof index size).2
    if proof.length ≠ inner + border then
      .error (.valueError
        ("wrong proof size " ++ toString proof.length ++ ", want " ++
          toString (inner + border)))
    else
      .ok (chain_border_right hasher
            (chain_inner hasher leaf_hash (proof.take inner) index)
            (proof.drop inner))

/-- The `inclusion_proof` dictionary handed to `verify_inclusion`:
integer `logIndex` and `treeSize`, hex-encoded `hashes` and `rootHash`. -/
structure InclusionProof where
  logIndex : Nat
  treeSize : Nat
  hashes : List String
  rootHash : String

/-- `verify_inclusion(hasher, inclusion_proof, leaf_hash)`: hex-decodes
the proof elements, the root and the leaf hash, recomputes the root and
compares.  (The `debug` printing is I/O and changes no result.) -/
def verify_inclusion (hasher : Hasher) (ip : InclusionProof)
    (leaf_hash : String) : Except PyExc Unit :=
  match fromhexList ip.hashes with
  | none => .error .hexError
  | some bytearray_proof =>
    match bytes_fromhex ip.rootHash with
    | none => .error .hexError
    | some bytearray_root =>
      match bytes_fromhex leaf_hash with
      | none => .error .hexError
      | some bytearray_leaf =>
        match root_from_inclusion_proof hasher ip.logIndex ip.treeSize
            bytearray_leaf bytearray_proof with
        | .error e => .error e
        | .ok calc_root => verify_match calc_root bytearray_root

/- ### Consistency proofs -/

/-- The local `shift` of `verify_consistency` (source line 161):
`(sizes[0] & -sizes[0]).bit_length() - 1`, see `pylowbit`. -/
def cons_shift (size1 : Nat) : Nat := bit_length (pylowbit size1) - 1

/-- The local `inner` of `verify_consistency` after the subtraction at
source line 162: the inner size of the decomposition at
`(size1 - 1, size2)` minus `shift`. -/
def cons_inner (size1 size2 : Nat) : Nat :=
  (decomp_incl_proof (size1 - 1) size2).1 - cons_shift size1

/-- The local `border` of `verify_consistency` (source line 160). -/
def cons_border (size1 size2 : Nat) : Nat :=
  (decomp_incl_proof (size1 - 1) size2).2

/-- The local `seed` of `verify_consistency` (source lines 164-167):
`root1` when `size1 == 1 << shift`, else `proof[0]`. -/
def cons_seed (size1 : Nat) (bytearray_proof : List Bytes) (root1 : Bytes) : Bytes :=
  if size1 = 1 <<< cons_shift size1 then root1 else bytearray_proof.headD []

/-- The local `start` of `verify_consistency` (source lines 164-167):
0 when `size1 == 1 << shift`, else 1. -/
def cons_start (size1 : Nat) : Nat :=
  if size1 = 1 <<< cons_shift size1 then 0 else 1

/-- The slice `bytearray_proof[start:]` of `verify_consistency`
(source line 174). -/
def cons_rest (size1 : Nat) (bytearray_proof : List Bytes) : List Bytes :=
  bytearray_proof.drop (cons_start size1)

/-- The `hash1` chain of `verify_consistency` (source lines 176-179):
`chain_inner_right` over the first `inner` remaining elements at index
`(size1 - 1) >> shift`, then `chain_border_right` over the rest. -/
def cons_hash1 (hasher : Hasher) (size1 size2 : Nat)
    (bytearray_proof : List Bytes) (root1 : Bytes) : Bytes :=
  chain_border_right hasher
    (chain_inner_right hasher (cons_seed size1 bytearray_proof root1)
      ((cons_rest size1 bytearray_proof).take (cons_inner size1 size2))
      ((size1 - 1) >>> cons_shift size1))
    ((cons_rest size1 bytearray_proof).drop (cons_inner size1 size2))

/-- The `hash2` chain of `verify_consistency` (source lines 182-183):
the same seed and elements, with the full `chain_inner` rule. -/
def cons_hash2 (hasher : Hasher) (size1 size2 : Nat)
    (bytearray_proof : List Bytes) (root1 : Bytes) : Bytes :=
  chain_border_right hasher
    (chain_inner hasher (cons_seed size1 bytearray_proof root1)
      ((cons_rest size1 bytearray_proof).take (cons_inner size1 size2))
      ((size1 - 1) >>> cons_shift size1))
    ((cons_rest size1 bytearray_proof).drop (cons_inner size1 size2))

/-- Core algorithm of `verify_consistency` (source lines 160-184), on the
already-decoded byte values, reached once all edge-case guards have
passed: proof-length validation against `start + inner + border`, then
the dual hash chains compared against the two roots in order. -/
def verify_consistency_algo (hasher : Hasher) (size1 size2 : Nat)
    (bytearray_proof : List Bytes) (root1 root2 : Bytes) : Except PyExc Unit :=
  if bytearray_proof.length ≠
      cons_start size1 + cons_inner size1 size2 + cons_border size1 size2 then
    .error (.valueError
      ("wrong bytearray_proof size " ++ toString bytearray_proof.length ++
        ", want " ++
        toString (cons_start size1 + cons_inner size1 size2 + cons_border size1 size2)))
  else
    match verify_match (cons_hash1 hasher size1 size2 bytearray_proof root1) root1 with
    | .error e => .error e
    | .ok _ =>
      verify_match (cons_hash2 hasher size1 size2 bytearray_proof root1) root2

/-- Edge-case guards of `verify_consistency` (source lines 144-158), on
the already-decoded byte values. -/
def verify_consistency_sizes (hasher : Hasher) (sizes : Nat × Nat)
    (bytearray_proof : List Bytes) (root1 root2 : Bytes) : Except PyExc Unit :=
  if sizes.2 < sizes.1 then
    .error (.valueError
      ("size2 (" ++ toString sizes.2 ++ ") < size1 (" ++
        toString sizes.1 ++ ")"))
  else if sizes.1 = sizes.2 then
    if bytearray_proof ≠ [] then
      .error (.valueError "size1=size2, but bytearray_proof is not empty")
    else verify_match root1 root2
  else if sizes.1 = 0 then
    if bytearray_proof ≠ [] then
      .error (.valueError
        ("expected empty bytearray_proof, but got " ++
          toString bytearray_proof.length ++ " components"))
    else .ok ()
  else if bytearray_proof = [] then
    .error (.valueError "empty bytearray_proof")
  else
    verify_consistency_algo hasher sizes.1 sizes.2 bytearray_proof root1 root2

/-- `verify_consistency(hasher, sizes, proof, roots)`.  The two-element
Python lists `sizes` and `roots` are embedded as pairs.  Hex decoding of
`roots[0]`, `roots[1]` and every proof element happens first, exactly as
in the source, before any size validation; any decode failure escapes as
the (library-raised) `hexError`. -/
def verify_consistency (hasher : Hasher) (sizes : Nat × Nat)
    (proof : List String) (roots : String × String) : Except PyExc Unit :=
  match bytes_fromhex roots.1, bytes_fromhex roots.2, fromhexList proof with
  | some root1, some root2, some bytearray_proof =>
    verify_consistency_sizes hasher sizes bytearray_proof root1 root2
  | _, _, _ => .error .hexError

/-- Fuel-driven count of trailing zero bits (used only to state what the
source expression `(n & -n).bit_length() - 1` computes). -/
def ctz_fuel : Nat → Nat → Nat
  | _, 0 => 0
  | 0, _ + 1 => 0
  | fuel + 1, n + 1 =>
    if (n + 1) % 2 = 1 then 0 else ctz_fuel fuel ((n + 1) / 2) + 1

/-- Number of trailing zero bits of a positive number. -/
def ctz (n : Nat) : Nat := ctz_fuel n n


/- ### SHA-256 (`hashlib.sha256`), over byte lists -/

/-- Truncation to a 32-bit word. -/
def w32 (n : Nat) : Nat := n % 4294967296

/-- 32-bit rotate right by `k`. -/
def rotr32 (k x : Nat) : Nat := w32 ((x >>> k) ||| (x <<< (32 - k)))

/-- SHA-256 `Ch` function. -/
def sha_ch (x y z : Nat) : Nat := (x &&& y) ^^^ ((x ^^^ 4294967295) &&& z)

/-- SHA-256 `Maj` function. -/
def sha_maj (x y z : Nat) : Nat := (x &&& y) ^^^ (x &&& z) ^^^ (y &&& z)

/-- SHA-256 big Sigma-0. -/
def sha_bs0 (x : Nat) : Nat := rotr32 2 x ^^^ rotr32 13 x ^^^ rotr32 22 x

/-- SHA-256 big Sigma-1. -/
def sha_bs1 (x : Nat) : Nat := rotr32 6 x ^^^ rotr32 11 x ^^^ rotr32 25 x

/-- SHA-256 small sigma-0. -/
def sha_ss0 (x : Nat) : Nat := rotr32 7 x ^^^ rotr32 18 x ^^^ (x >>> 3)

/-- SHA-256 small sigma-1. -/
def sha_ss1 (x : Nat) : Nat := rotr32 17 x ^^^ rotr32 19 x ^^^ (x >>> 10)

/-- SHA-256 round constants (decimal). -/
def shaK : List Nat :=
  [1116352408, 1899447441, 3049323471, 3921009573,
   961987163, 1508970993, 2453635748, 2870763221,
   3624381080, 310598401, 607225278, 1426881987,
   1925078388, 2162078206, 2614888103, 3248222580,
   3835390401, 4022224774, 264347078, 604807628,
   770255983, 1249150122, 1555081692, 1996064986,
   2554220882, 2821834349, 2952996808, 3210313671,
   3336571891, 3584528711, 113926993, 338241895,
   666307205, 773529912, 1294757372, 1396182291,
   1695183700, 1986661051, 2177026350, 2456956037,
   2730485921, 2820302411, 3259730800, 3345764771,
   3516065817, 3600352804, 4094571909, 275423344,
   430227734, 506948616, 659060556, 883997877,
   958139571, 1322822218, 1537002063, 1747873779,
   1955562222, 2024104815, 2227730452, 2361852424,
   2428436474, 2756734187, 3204031479, 3329325298]

/-- SHA-256 initial state (decimal). -/
def shaH0 : List Nat :=
  [1779033703, 3144134277, 1013904242, 2773480762,
   1359893119, 2600822924, 528734635, 1541459225]

/-- `k` big-endian bytes of `n`. -/
def beBytes : Nat → Nat → Bytes
  | 0, _ => []
  | k + 1, n => ((n >>> (8 * k)) % 256) :: beBytes k n

/-- Big-endian 32-bit words from bytes (leftover bytes dropped; inputs
here are always multiples of four bytes). -/
def toWords : Bytes → List Nat
  | b0 :: b1 :: b2 :: b3 :: rest =>
    (((b0 * 256 + b1) * 256 + b2) * 256 + b3) :: toWords rest
  | _ => []

/-- SHA-256 padding: append `0x80`, zeros to 56 mod 64, then the bit
length as eight big-endian bytes. -/
def sha_pad (msg : Bytes) : Bytes :=
  msg ++ [128] ++
    List.replicate ((64 + 56 - (msg.length + 1) % 64) % 64) 0 ++
    beBytes 8 (8 * msg.length)

/-- Splits into 64-byte chunks (fuel-driven on the length). -/
def chunks64 : Nat → Bytes → List Bytes
  | _, [] => []
  | 0, l => [l]
  | fuel + 1, l => l.take 64 :: chunks64 fuel (l.drop 64)

/-- Extends the 16-word schedule by `k` further words. -/
def sha_sched (ws : List Nat) : Nat → List Nat
  | 0 => ws
  | k + 1 =>
    sha_sched
      (ws ++ [w32 (sha_ss1 (ws.getD (ws.length - 2) 0) +
        ws.getD (ws.length - 7) 0 +
        sha_ss0 (ws.getD (ws.length - 15) 0) +
        ws.getD (ws.length - 16) 0)]) k

/-- The 64 compression rounds, one per `(constant, scheduled word)`. -/
def sha_rounds : List (Nat × Nat) → List Nat → List Nat
  | [], st => st
  | (k, w) :: rest, st =>
    let a := st.getD 0 0
    let b := st.getD 1 0
    let c := st.getD 2 0
    let d := st.getD 3 0
    let e := st.getD 4 0
    let f := st.getD 5 0
    let g := st.getD 6 0
    let h := st.getD 7 0
    let t1 := w32 (h + sha_bs1 e + sha_ch e f g + k + w)
    let t2 := w32 (sha_bs0 a + sha_maj a b c)
    sha_rounds rest [w32 (t1 + t2), a, b, c, w32 (d + t1), e, f, g]

/-- One SHA-256 compression of a 64-byte chunk into the state. -/
def sha_compress (st : List Nat) (chunk : Bytes) : List Nat :=
  let ws := sha_sched (toWords chunk) 48
  let st' := sha_rounds (shaK.zip ws) st
  List.zipWith (fun x y => w32 (x + y)) st st'

/-- `hashlib.sha256(msg).digest()` as a byte list. -/
def sha256 (msg : Bytes) : Bytes :=
  ((chunks64 (sha_pad msg).length (sha_pad msg)).foldl sha_compress shaH0).flatMap
    (beBytes 4)

/-- `DefaultHasher = Hasher(hashlib.sha256)`: SHA-256 with its 32-byte
digest size. -/
def DefaultHasher : Hasher := ⟨sha256, 32⟩

/- ### Base64 decoding (`base64.b64decode`) -/

/-- Value of one standard-alphabet base64 character. -/
def b64val (c : Char) : Option Nat :=
  if 'A' ≤ c ∧ c ≤ 'Z' then some (c.toNat - 'A'.toNat)
  else if 'a' ≤ c ∧ c ≤ 'z' then some (c.toNat - 'a'.toNat + 26)
  else if '0' ≤ c ∧ c ≤ '9' then some (c.toNat - '0'.toNat + 52)
  else if c = '+' then some 62
  else if c = '/' then some 63
  else none

/-- Decodes base64 four characters at a time, with `=` padding allowed
only in the final quartet. -/
def b64chunks : List Char → Option Bytes
  | [] => some []
  | c1 :: c2 :: c3 :: c4 :: rest =>
    (match b64val c1, b64val c2 with
     | some v1, some v2 =>
       if rest = [] ∧ c4 = '=' then
         if c3 = '=' then some [v1 * 4 + v2 / 16]
         else
           match b64val c3 with
           | some v3 => some [v1 * 4 + v2 / 16, v2 % 16 * 16 + v3 / 4]
           | none => none
       else
         match b64val c3, b64val c4, b64chunks rest with
         | some v3, some v4, some bs =>
           some ([v1 * 4 + v2 / 16, v2 % 16 * 16 + v3 / 4, v3 % 4 * 64 + v4] ++ bs)
         | _, _, _ => none
     | _, _ => none)
  | _ => none

/-- `base64.b64decode(body)` for a `body` over the standard alphabet with
canonical `=` padding.  (CPython additionally discards characters outside
the alphabet before decoding; no claim depends on that, so such strings
are simply rejected here.)  `none` models the raised `binascii.Error`. -/
def b64decode (body : String) : Option Bytes := b64chunks body.data

/-- `compute_leaf_hash(body)`: base64-decodes the body, then returns the
hex digest of SHA-256 over the leaf-hash domain prefix byte 0 followed by
the decoded entry bytes. -/
def compute_leaf_hash (body : String) : Option String :=
  match b64decode body with
  | none => none
  | some entry_bytes => some (bytes_hex (sha256 ([0] ++ entry_bytes)))

/-- ASCII bytes of a string (Python `str.encode()` for ASCII text). -/
def str_ascii (s : String) : Bytes := s.data.map Char.toNat


/- ### Decidable equality for results, and concrete test data -/

/-- Decidable equality of `Except` results, for concrete evaluation. -/
instance {e a : Type} [DecidableEq e] [DecidableEq a] : DecidableEq (Except e a) :=
  fun x y =>
    match x, y with
    | .error u, .error v =>
      match decEq u v with
      | isTrue h => isTrue (by rw [h])
      | isFalse h => isFalse (by intro he; cases he; exact h rfl)
    | .ok u, .ok v =>
      match decEq u v with
      | isTrue h => isTrue (by rw [h])
      | isFalse h => isFalse (by intro he; cases he; exact h rfl)
    | .error _, .ok _ => isFalse (by intro h; cases h)
    | .ok _, .error _ => isFalse (by intro h; cases h)

/-- A small pluggable hash function (1-byte digests) for concrete
witnesses: the `Hasher` class accepts any `hash_func`. -/
def toyHasher : Hasher :=
  ⟨fun bs => [(bs.foldl (fun a b => a + 2 * b + 1) bs.length) % 256], 1⟩

/-- Toy leaf hash of the single-byte leaf `[i]`. -/
def toy_lh (i : Nat) : Bytes := toyHasher.hash_leaf [i]

/-- Toy 2-leaf root. -/
def toy_root2 : Bytes := toyHasher.hash_children (toy_lh 0) (toy_lh 1)

/-- Toy internal node over leaves 0 and 1 of the 4-leaf tree. -/
def toy_n01 : Bytes := toyHasher.hash_children (toy_lh 0) (toy_lh 1)

/-- Toy internal node over leaves 2 and 3 of the 4-leaf tree. -/
def toy_n23 : Bytes := toyHasher.hash_children (toy_lh 2) (toy_lh 3)

/-- Toy 4-leaf root. -/
def toy_root4 : Bytes := toyHasher.hash_children toy_n01 toy_n23

/-- Toy inclusion-proof record for leaf 2 of the 4-leaf tree. -/
def toy_ip4 : InclusionProof :=
  ⟨2, 4, [bytes_hex (toy_lh 3), bytes_hex toy_n01], bytes_hex toy_root4⟩

/-- SHA-256 leaf hash of the single-byte leaf `[i]`, for the concrete
4-leaf scenario of the spec (leaves `L0..L3 = [0]..[3]`). -/
def c9_lh (i : Nat) : Bytes := DefaultHasher.hash_leaf [i]

/-- SHA-256 node over leaves 0 and 1. -/
def c9_n01 : Bytes := DefaultHasher.hash_children (c9_lh 0) (c9_lh 1)

/-- SHA-256 node over leaves 2 and 3. -/
def c9_n23 : Bytes := DefaultHasher.hash_children (c9_lh 2) (c9_lh 3)

/-- SHA-256 root `R4` of the 4-leaf tree. -/
def c9_root : Bytes := DefaultHasher.hash_children c9_n01 c9_n23

/-- Inclusion-proof record for leaf 2 of the SHA-256 4-leaf tree. -/
def c9_ip : InclusionProof :=
  ⟨2, 4, [bytes_hex (c9_lh 3), bytes_hex c9_n01], bytes_hex c9_root⟩

/- ### Arithmetic facts about the bit primitives -/

theorem bit_length_fuel_zero (f : Nat) : bit_length_fuel f 0 = 0 := by
  cases f <;> rfl

theorem bit_length_fuel_congr :
    ∀ f g n, n ≤ f → n ≤ g → bit_length_fuel f n = bit_length_fuel g n := by
  intro f
  induction f with
  | zero =>
    intro g n hf _
    have hn : n = 0 := Nat.le_zero.mp hf
    subst hn
    rw [bit_length_fuel_zero, bit_length_fuel_zero]
  | succ f ih =>
    intro g n hf hg
    match n, g with
    | 0, g => rw [bit_length_fuel_zero, bit_length_fuel_zero]
    | m + 1, g + 1 =>
      show bit_length_fuel f ((m + 1) / 2) + 1 = bit_length_fuel g ((m + 1) / 2) + 1
      rw [ih g ((m + 1) / 2) (by omega) (by omega)]

theorem bit_length_succ (n : Nat) :
    bit_length (n + 1) = bit_length ((n + 1) / 2) + 1 := by
  show bit_length_fuel n ((n + 1) / 2) + 1 = bit_length_fuel ((n + 1) / 2) ((n + 1) / 2) + 1
  rw [bit_length_fuel_congr n ((n + 1) / 2) ((n + 1) / 2) (by omega) le_rfl]

theorem bit_length_pos_eq (n : Nat) (h : 0 < n) :
    bit_length n = bit_length (n / 2) + 1 := by
  match n, h with
  | m + 1, _ => exact bit_length_succ m

theorem lt_two_pow_bit_length (n : Nat) : n < 2 ^ bit_length n := by
  induction n using Nat.strong_induction_on with
  | _ n ih =>
    match n with
    | 0 => decide
    | m + 1 =>
      rw [bit_length_succ, pow_succ]
      have h := ih ((m + 1) / 2) (by omega)
      generalize 2 ^ bit_length ((m + 1) / 2) = b at h ⊢
      omega

theorem bit_length_two_mul (n : Nat) (h : 0 < n) :
    bit_length (2 * n) = bit_length n + 1 := by
  have h2 : 2 * n / 2 = n := by omega
  rw [bit_length_pos_eq (2 * n) (by omega), h2]

theorem bit_length_two_pow (k : Nat) : bit_length (2 ^ k) = k + 1 := by
  induction k with
  | zero => rfl
  | succ k ih =>
    rw [pow_succ, Nat.mul_comm, bit_length_two_mul _ (Nat.two_pow_pos k), ih]

theorem ctz_fuel_zero (f : Nat) : ctz_fuel f 0 = 0 := by
  cases f <;> rfl

theorem ctz_fuel_congr :
    ∀ f g n, n ≤ f → n ≤ g → ctz_fuel f n = ctz_fuel g n := by
  intro f
  induction f with
  | zero =>
    intro g n hf _
    have hn : n = 0 := Nat.le_zero.mp hf
    subst hn
    rw [ctz_fuel_zero, ctz_fuel_zero]
  | succ f ih =>
    intro g n hf hg
    match n, g with
    | 0, g => rw [ctz_fuel_zero, ctz_fuel_zero]
    | m + 1, g + 1 =>
      show (if (m + 1) % 2 = 1 then 0 else ctz_fuel f ((m + 1) / 2) + 1) =
        (if (m + 1) % 2 = 1 then 0 else ctz_fuel g ((m + 1) / 2) + 1)
      rw [ih g ((m + 1) / 2) (by omega) (by omega)]

theorem ctz_odd (n : Nat) (h : n % 2 = 1) : ctz n = 0 := by
  match n with
  | m + 1 =>
    show (if (m + 1) % 2 = 1 then 0 else ctz_fuel m ((m + 1) / 2) + 1) = 0
    rw [if_pos h]

theorem ctz_even (n : Nat) (h0 : 0 < n) (h : n % 2 = 0) :
    ctz n = ctz (n / 2) + 1 := by
  match n, h0 with
  | m + 1, _ =>
    show (if (m + 1) % 2 = 1 then 0 else ctz_fuel m ((m + 1) / 2) + 1) = _
    rw [if_neg (by omega)]
    rw [ctz_fuel_congr m ((m + 1) / 2) ((m + 1) / 2) (by omega) le_rfl]
    rfl

theorem ctz_two_pow (k : Nat) : ctz (2 ^ k) = k := by
  induction k with
  | zero => rfl
  | succ k ih =>
    rw [ctz_even (2 ^ (k + 1)) (Nat.two_pow_pos _) (by
      rw [pow_succ]; omega)]
    rw [pow_succ, Nat.mul_div_cancel _ (by omega), ih]

theorem ctz_pow_dvd : ∀ n, 2 ^ ctz n ∣ n := by
  intro n
  induction n using Nat.strong_induction_on with
  | _ n ih =>
    match n with
    | 0 => simp
    | m + 1 =>
      rcases Nat.mod_two_eq_zero_or_one (m + 1) with he | ho
      · rw [ctz_even (m + 1) (by omega) he, pow_succ]
        have hd := ih ((m + 1) / 2) (by omega)
        rcases hd with ⟨c, hc⟩
        refine ⟨c, ?_⟩
        calc m + 1 = 2 * ((m + 1) / 2) := by omega
          _ = 2 * (2 ^ ctz ((m + 1) / 2) * c) := by rw [← hc]
          _ = 2 ^ ctz ((m + 1) / 2) * 2 * c := by ring
      · rw [ctz_odd _ ho]
        simp

theorem ctz_pow_succ_not_dvd : ∀ n, 0 < n → ¬ 2 ^ (ctz n + 1) ∣ n := by
  intro n
  induction n using Nat.strong_induction_on with
  | _ n ih =>
    intro h0
    rcases Nat.mod_two_eq_zero_or_one n with he | ho
    · rw [ctz_even n h0 he]
      intro hd
      have hm : 0 < n / 2 := by omega
      rcases hd with ⟨c, hc⟩
      rw [pow_succ] at hc
      have h2 : n = 2 ^ (ctz (n / 2) + 1) * c * 2 := hc.trans (by ring)
      exact ih (n / 2) (by omega) hm ⟨c, by omega⟩
    · rw [ctz_odd n ho, pow_one]
      intro hd
      rcases hd with ⟨c, hc⟩
      omega

theorem two_mul_land (a b : Nat) : (2 * a) &&& (2 * b) = 2 * (a &&& b) := by
  apply Nat.eq_of_testBit_eq
  intro i
  cases i with
  | zero =>
    simp [Nat.testBit_and, Nat.testBit_zero, Nat.mul_mod_right]
  | succ i =>
    have ha : 2 * a / 2 = a := by omega
    have hb : 2 * b / 2 = b := by omega
    have hc : 2 * (a &&& b) / 2 = a &&& b := by omega
    rw [Nat.testBit_and, Nat.testBit_succ, Nat.testBit_succ, Nat.testBit_succ,
      ha, hb, hc, Nat.testBit_and]

theorem odd_land_two_pow_sub (n k : Nat) (ho : n % 2 = 1) (hlt : n < 2 ^ k) :
    n &&& (2 ^ k - n) = 1 := by
  have hk : 0 < k := by
    rcases Nat.eq_zero_or_pos k with h | h
    · subst h; simp at hlt; omega
    · exact h
  have hx : n - 1 < 2 ^ k := by omega
  have hsub : 2 ^ k - n = 2 ^ k - ((n - 1) + 1) := by omega
  apply Nat.eq_of_testBit_eq
  intro i
  rw [Nat.testBit_and, hsub, Nat.testBit_two_pow_sub_succ hx]
  cases i with
  | zero =>
    have h1 : (n - 1) % 2 = 1 → False := by omega
    simp [Nat.testBit_zero, ho, hk]
    omega
  | succ i =>
    have hdiv : (n - 1) / 2 = n / 2 := by omega
    rw [Nat.testBit_succ, Nat.testBit_succ, Nat.testBit_succ, hdiv]
    have h12 : (1 : Nat) / 2 = 0 := rfl
    rw [h12, Nat.zero_testBit]
    cases hb : Nat.testBit (n / 2) i <;> simp [hb]

theorem pylowbit_eq_two_pow_ctz : ∀ n, 0 < n → pylowbit n = 2 ^ ctz n := by
  intro n
  induction n using Nat.strong_induction_on with
  | _ n ih =>
    intro hn
    rcases Nat.mod_two_eq_zero_or_one n with he | ho
    · have hm : 0 < n / 2 := by omega
      have hn2 : n = 2 * (n / 2) := by omega
      have hrec := ih (n / 2) (by omega) hm
      have harith : 2 ^ (bit_length (n / 2) + 1) - 2 * (n / 2) =
          2 * (2 ^ bit_length (n / 2) - n / 2) := by
        rw [pow_succ]
        have := Nat.two_pow_pos (bit_length (n / 2))
        generalize 2 ^ bit_length (n / 2) = b at *
        omega
      have key : pylowbit n = 2 * pylowbit (n / 2) := by
        unfold pylowbit
        conv_lhs => rw [hn2]
        rw [bit_length_two_mul _ hm, harith, two_mul_land]
      rw [key, hrec, ctz_even n hn he, pow_succ]
      ring
    · unfold pylowbit
      rw [odd_land_two_pow_sub n (bit_length n) ho (lt_two_pow_bit_length n),
        ctz_odd n ho]
      rfl

theorem shift_eq_ctz (n : Nat) (h : 0 < n) :
    bit_length (pylowbit n) - 1 = ctz n := by
  rw [pylowbit_eq_two_pow_ctz n h, bit_length_two_pow]
  omega

theorem eq_two_pow_ctz_iff (n : Nat) (h : 0 < n) :
    n = 2 ^ ctz n ↔ ∃ k, n = 2 ^ k := by
  constructor
  · intro h'
    exact ⟨ctz n, h'⟩
  · rintro ⟨k, rfl⟩
    rw [ctz_two_pow]


/- ### Behaviour of `verify_match` and the decoders -/

theorem verify_match_ok_iff (c e : Bytes) : verify_match c e = .ok () ↔ c = e := by
  unfold verify_match
  by_cases h : c = e <;> simp [h]

theorem verify_match_ne (c e : Bytes) (h : c ≠ e) :
    verify_match c e = .error (.rootMismatch e c) := by
  unfold verify_match
  simp [h]

theorem verify_match_eq (c e : Bytes) (h : c = e) : verify_match c e = .ok () :=
  (verify_match_ok_iff c e).mpr h

theorem fromhexList_eq_none (l : List String)
    (h : ∃ e ∈ l, bytes_fromhex e = none) : fromhexList l = none := by
  induction l with
  | nil =>
    rcases h with ⟨e, he, _⟩
    cases he
  | cons s rest ih =>
    rcases h with ⟨e, he, hne⟩
    rcases List.mem_cons.mp he with rfl | hmem
    · cases hrest : fromhexList rest <;> simp [fromhexList, hne, hrest]
    · have hr := ih ⟨e, hmem, hne⟩
      cases hs : bytes_fromhex s <;> simp [fromhexList, hs, hr]

/- ### Behaviour of `root_from_inclusion_proof` and `verify_inclusion` -/

theorem rfip_index_oob (hasher : Hasher) (index size : Nat) (leaf : Bytes)
    (proof : List Bytes) (h : size ≤ index) :
    root_from_inclusion_proof hasher index size leaf proof =
      .error (.valueError
        ("index is beyond size: " ++ toString index ++ " >= " ++ toString size)) := by
  unfold root_from_inclusion_proof
  rw [if_pos h]

theorem rfip_leaf_size (hasher : Hasher) (index size : Nat) (leaf : Bytes)
    (proof : List Bytes) (h1 : index < size) (h2 : leaf.length ≠ hasher.size) :
    root_from_inclusion_proof hasher index size leaf proof =
      .error (.valueError
        ("leaf_hash has unexpected size " ++ toString leaf.length ++
          ", want " ++ toString hasher.size)) := by
  unfold root_from_inclusion_proof
  rw [if_neg (by omega), if_pos h2]

theorem rfip_wrong_size (hasher : Hasher) (index size : Nat) (leaf : Bytes)
    (proof : List Bytes) (h1 : index < size) (h2 : leaf.length = hasher.size)
    (h3 : proof.length ≠
      (decomp_incl_proof index size).1 + (decomp_incl_proof index size).2) :
    root_from_inclusion_proof hasher index size leaf proof =
      .error (.valueError
        ("wrong proof size " ++ toString proof.length ++ ", want " ++
          toString ((decomp_incl_proof index size).1 + (decomp_incl_proof index size).2))) := by
  unfold root_from_inclusion_proof
  rw [if_neg (by omega), if_neg (not_not_intro h2), if_pos h3]

theorem rfip_ok (hasher : Hasher) (index size : Nat) (leaf : Bytes)
    (proof : List Bytes) (h1 : index < size) (h2 : leaf.length = hasher.size)
    (h3 : proof.length =
      (decomp_incl_proof index size).1 + (decomp_incl_proof index size).2) :
    root_from_inclusion_proof hasher index size leaf proof =
      .ok (chain_border_right hasher
            (chain_inner hasher leaf (proof.take (decomp_incl_proof index size).1) index)
            (proof.drop (decomp_incl_proof index size).1)) := by
  unfold root_from_inclusion_proof
  rw [if_neg (by omega), if_neg (not_not_intro h2), if_neg (not_not_intro h3)]

theorem verify_inclusion_decoded (hasher : Hasher) (ip : InclusionProof)
    (leaf_hash : String) (bap : List Bytes) (rootB leafB : Bytes)
    (h1 : fromhexList ip.hashes = some bap)
    (h2 : bytes_fromhex ip.rootHash = some rootB)
    (h3 : bytes_fromhex leaf_hash = some leafB) :
    verify_inclusion hasher ip leaf_hash =
      (match root_from_inclusion_proof hasher ip.logIndex ip.treeSize leafB bap with
       | .error e => .error e
       | .ok calc_root => verify_match calc_root rootB) := by
  simp only [verify_inclusion, h1, h2, h3]

/- ### Behaviour of the consistency verifier -/

theorem verify_consistency_decoded (hasher : Hasher) (sizes : Nat × Nat)
    (proof : List String) (roots : String × String) (b1 b2 : Bytes) (bap : List Bytes)
    (h1 : bytes_fromhex roots.1 = some b1) (h2 : bytes_fromhex roots.2 = some b2)
    (h3 : fromhexList proof = some bap) :
    verify_consistency hasher sizes proof roots =
      verify_consistency_sizes hasher sizes bap b1 b2 := by
  simp only [verify_consistency, h1, h2, h3]

theorem vcs_regression (hasher : Hasher) (sizes : Nat × Nat) (bap : List Bytes)
    (b1 b2 : Bytes) (h : sizes.2 < sizes.1) :
    verify_consistency_sizes hasher sizes bap b1 b2 =
      .error (.valueError
        ("size2 (" ++ toString sizes.2 ++ ") < size1 (" ++ toString sizes.1 ++ ")")) := by
  unfold verify_consistency_sizes
  rw [if_pos h]

theorem vcs_equal_nonempty (hasher : Hasher) (sizes : Nat × Nat) (bap : List Bytes)
    (b1 b2 : Bytes) (h1 : sizes.1 = sizes.2) (h2 : bap ≠ []) :
    verify_consistency_sizes hasher sizes bap b1 b2 =
      .error (.valueError "size1=size2, but bytearray_proof is not empty") := by
  unfold verify_consistency_sizes
  rw [if_neg (by omega), if_pos h1, if_pos h2]

theorem vcs_equal_empty (hasher : Hasher) (sizes : Nat × Nat) (bap : List Bytes)
    (b1 b2 : Bytes) (h1 : sizes.1 = sizes.2) (h2 : bap = []) :
    verify_consistency_sizes hasher sizes bap b1 b2 = verify_match b1 b2 := by
  unfold verify_consistency_sizes
  rw [if_neg (by omega), if_pos h1, if_neg (not_not_intro h2)]

theorem vcs_zero_nonempty (hasher : Hasher) (sizes : Nat × Nat) (bap : List Bytes)
    (b1 b2 : Bytes) (h0 : sizes.1 = 0) (hne : sizes.1 ≠ sizes.2) (h2 : bap ≠ []) :
    verify_consistency_sizes hasher sizes bap b1 b2 =
      .error (.valueError
        ("expected empty bytearray_proof, but got " ++
          toString bap.length ++ " components")) := by
  unfold verify_consistency_sizes
  rw [if_neg (by omega), if_neg hne, if_pos h0, if_pos h2]

theorem vcs_zero_empty (hasher : Hasher) (sizes : Nat × Nat) (bap : List Bytes)
    (b1 b2 : Bytes) (h0 : sizes.1 = 0) (hne : sizes.1 ≠ sizes.2) (h2 : bap = []) :
    verify_consistency_sizes hasher sizes bap b1 b2 = .ok () := by
  unfold verify_consistency_sizes
  rw [if_neg (by omega), if_neg hne, if_pos h0, if_neg (not_not_intro h2)]

theorem vcs_empty_proof (hasher : Hasher) (sizes : Nat × Nat) (bap : List Bytes)
    (b1 b2 : Bytes) (h0 : 0 < sizes.1) (h12 : sizes.1 < sizes.2) (h2 : bap = []) :
    verify_consistency_sizes hasher sizes bap b1 b2 =
      .error (.valueError "empty bytearray_proof") := by
  unfold verify_consistency_sizes
  rw [if_neg (by omega), if_neg (by omega), if_neg (by omega), if_pos h2]

theorem vcs_algo (hasher : Hasher) (sizes : Nat × Nat) (bap : List Bytes)
    (b1 b2 : Bytes) (h0 : 0 < sizes.1) (h12 : sizes.1 < sizes.2) (h2 : bap ≠ []) :
    verify_consistency_sizes hasher sizes bap b1 b2 =
      verify_consistency_algo hasher sizes.1 sizes.2 bap b1 b2 := by
  unfold verify_consistency_sizes
  rw [if_neg (by omega), if_neg (by omega), if_neg (by omega), if_neg h2]

theorem vca_wrong_size (hasher : Hasher) (s1 s2 : Nat) (bap : List Bytes)
    (b1 b2 : Bytes)
    (h : bap.length ≠ cons_start s1 + cons_inner s1 s2 + cons_border s1 s2) :
    verify_consistency_algo hasher s1 s2 bap b1 b2 =
      .error (.valueError
        ("wrong bytearray_proof size " ++ toString bap.length ++ ", want " ++
          toString (cons_start s1 + cons_inner s1 s2 + cons_border s1 s2))) := by
  unfold verify_consistency_algo
  rw [if_pos h]

theorem vca_ok_iff (hasher : Hasher) (s1 s2 : Nat) (bap : List Bytes)
    (b1 b2 : Bytes)
    (h : bap.length = cons_start s1 + cons_inner s1 s2 + cons_border s1 s2) :
    verify_consistency_algo hasher s1 s2 bap b1 b2 = .ok () ↔
      (chain_border_right hasher
          (chain_inner_right hasher (cons_seed s1 bap b1)
            ((bap.drop (cons_start s1)).take (cons_inner s1 s2))
            ((s1 - 1) >>> cons_shift s1))
          ((bap.drop (cons_start s1)).drop (cons_inner s1 s2)) = b1 ∧
        chain_border_right hasher
          (chain_inner hasher (cons_seed s1 bap b1)
            ((bap.drop (cons_start s1)).take (cons_inner s1 s2))
            ((s1 - 1) >>> cons_shift s1))
          ((bap.drop (cons_start s1)).drop (cons_inner s1 s2)) = b2) := by
  unfold verify_consistency_algo cons_hash1 cons_hash2 cons_rest
  rw [if_neg (not_not_intro h)]
  by_cases h1 : chain_border_right hasher
      (chain_inner_right hasher (cons_seed s1 bap b1)
        ((bap.drop (cons_start s1)).take (cons_inner s1 s2))
        ((s1 - 1) >>> cons_shift s1))
      ((bap.drop (cons_start s1)).drop (cons_inner s1 s2)) = b1
  · rw [verify_match_eq _ _ h1]
    by_cases h2 : chain_border_right hasher
        (chain_inner hasher (cons_seed s1 bap b1)
          ((bap.drop (cons_start s1)).take (cons_inner s1 s2))
          ((s1 - 1) >>> cons_shift s1))
        ((bap.drop (cons_start s1)).drop (cons_inner s1 s2)) = b2
    · rw [verify_match_eq _ _ h2]
      exact ⟨fun _ => ⟨h1, h2⟩, fun _ => rfl⟩
    · rw [verify_match_ne _ _ h2]
      exact iff_of_false (fun hx => Except.noConfusion hx) (fun hx => h2 hx.2)
  · rw [verify_match_ne _ _ h1]
    exact iff_of_false (fun hx => Except.noConfusion hx) (fun hx => h1 hx.1)

theorem vca_result_cases (hasher : Hasher) (s1 s2 : Nat) (bap : List Bytes)
    (b1 b2 : Bytes)
    (h : bap.length = cons_start s1 + cons_inner s1 s2 + cons_border s1 s2) :
    verify_consistency_algo hasher s1 s2 bap b1 b2 = .ok () ∨
      ∃ e c, verify_consistency_algo hasher s1 s2 bap b1 b2 =
        .error (.rootMismatch e c) := by
  unfold verify_consistency_algo
  rw [if_neg (not_not_intro h)]
  by_cases h1 : cons_hash1 hasher s1 s2 bap b1 = b1
  · rw [verify_match_eq _ _ h1]
    by_cases h2 : cons_hash2 hasher s1 s2 bap b1 = b2
    · rw [verify_match_eq _ _ h2]
      exact Or.inl rfl
    · rw [verify_match_ne _ _ h2]
      exact Or.inr ⟨b2, cons_hash2 hasher s1 s2 bap b1, rfl⟩
  · rw [verify_match_ne _ _ h1]
    exact Or.inr ⟨b1, cons_hash1 hasher s1 s2 bap b1, rfl⟩

/- ### The claims -/

/-- C5: in `root_from_inclusion_proof` validation runs in order — index
bound, then leaf-hash length, then proof length — each failure terminal
with its own distinct `ValueError` message.  The hash function `f` is
universally quantified and never applied on a failing path (only the
digest size `ds` is consulted), capturing that no hashing is performed
unless all three checks pass. -/
theorem claim_C5 (f : Bytes → Bytes) (ds index size : Nat) (leaf : Bytes)
    (proof : List Bytes) :
    (size ≤ index →
      root_from_inclusion_proof ⟨f, ds⟩ index size leaf proof =
        .error (.valueError
          ("index is beyond size: " ++ toString index ++ " >= " ++ toString size))) ∧
    (index < size → leaf.length ≠ ds →
      root_from_inclusion_proof ⟨f, ds⟩ index size leaf proof =
        .error (.valueError
          ("leaf_hash has unexpected size " ++ toString leaf.length ++
            ", want " ++ toString ds))) ∧
    (index < size → leaf.length = ds →
      proof.length ≠
        (decomp_incl_proof index size).1 + (decomp_incl_proof index size).2 →
      root_from_inclusion_proof ⟨f, ds⟩ index size leaf proof =
        .error (.valueError
          ("wrong proof size " ++ toString proof.length ++ ", want " ++
            toString ((decomp_incl_proof index size).1 + (decomp_incl_proof index size).2)))) :=
  ⟨fun h => rfip_index_oob _ index size leaf proof h,
   fun h1 h2 => rfip_leaf_size _ index size leaf proof h1 h2,
   fun h1 h2 h3 => rfip_wrong_size _ index size leaf proof h1 h2 h3⟩

/-- Witness for C5 at the concrete input `index = 5 ≥ size = 3`. -/
theorem claim_C5_witness :
    root_from_inclusion_proof ⟨toyHasher.hashFunc, 1⟩ 5 3 [0] [] =
      .error (.valueError "index is beyond size: 5 >= 3") :=
  (claim_C5 toyHasher.hashFunc 1 5 3 [0] []).1 (by decide)

/-- C4: `inner_proof_size` is the bit length of `index XOR (size - 1)`,
`decomp_incl_proof` returns that inner size with the popcount of
`index >> inner` as border, and for `index < size` with a good leaf hash,
`root_from_inclusion_proof` succeeds exactly when the proof length is
`inner + border`. -/
theorem claim_C4 (index size : Nat) (hasher : Hasher) (leaf : Bytes)
    (proof : List Bytes) (h : index < size) (hleaf : leaf.length = hasher.size) :
    inner_proof_size index size = bit_length (index ^^^ (size - 1)) ∧
    decomp_incl_proof index size =
      (inner_proof_size index size, popcount (index >>> inner_proof_size index size)) ∧
    ((∃ r, root_from_inclusion_proof hasher index size leaf proof = .ok r) ↔
      proof.length =
        (decomp_incl_proof index size).1 + (decomp_incl_proof index size).2) := by
  refine ⟨rfl, rfl, ?_, ?_⟩
  · rintro ⟨r, hr⟩
    by_contra hlen
    rw [rfip_wrong_size hasher index size leaf proof h hleaf hlen] at hr
    exact Except.noConfusion hr
  · intro hlen
    exact ⟨_, rfip_ok hasher index size leaf proof h hleaf hlen⟩

/-- Witness for C4 at `index = 2`, `size = 4` with the toy hasher:
decomposition gives `inner + border = 2` and a 2-element proof is
accepted. -/
theorem claim_C4_witness :
    ∃ r, root_from_inclusion_proof toyHasher 2 4 (toy_lh 2) [toy_lh 3, toy_n01] =
      .ok r :=
  (claim_C4 2 4 toyHasher (toy_lh 2) [toy_lh 3, toy_n01]
    (by decide) (by decide)).2.2.mpr (by decide)

/-- C3: on a valid inclusion input, `root_from_inclusion_proof` chains
the leaf hash through `chain_inner` over `proof[0..inner)` (bit `i` of
`index` choosing the side) and then `chain_border_right` over
`proof[inner:]`, and `verify_inclusion` passes exactly when that final
value byte-equals the expected root. -/
theorem claim_C3 (hasher : Hasher) (ip : InclusionProof) (leaf_hash : String)
    (bap : List Bytes) (rootB leafB : Bytes)
    (hd1 : fromhexList ip.hashes = some bap)
    (hd2 : bytes_fromhex ip.rootHash = some rootB)
    (hd3 : bytes_fromhex leaf_hash = some leafB)
    (hidx : ip.logIndex < ip.treeSize)
    (hleaf : leafB.length = hasher.size)
    (hlen : bap.length = (decomp_incl_proof ip.logIndex ip.treeSize).1 +
      (decomp_incl_proof ip.logIndex ip.treeSize).2) :
    root_from_inclusion_proof hasher ip.logIndex ip.treeSize leafB bap =
      .ok (chain_border_right hasher
            (chain_inner hasher leafB
              (bap.take (decomp_incl_proof ip.logIndex ip.treeSize).1) ip.logIndex)
            (bap.drop (decomp_incl_proof ip.logIndex ip.treeSize).1)) ∧
    (verify_inclusion hasher ip leaf_hash = .ok () ↔
      chain_border_right hasher
        (chain_inner hasher leafB
          (bap.take (decomp_incl_proof ip.logIndex ip.treeSize).1) ip.logIndex)
        (bap.drop (decomp_incl_proof ip.logIndex ip.treeSize).1) = rootB) := by
  have hok := rfip_ok hasher ip.logIndex ip.treeSize leafB bap hidx hleaf hlen
  refine ⟨hok, ?_⟩
  rw [verify_inclusion_decoded hasher ip leaf_hash bap rootB leafB hd1 hd2 hd3, hok]
  exact verify_match_ok_iff _ _

/-- Witness for C3: the toy 4-leaf tree at index 2 verifies. -/
theorem claim_C3_witness :
    verify_inclusion toyHasher toy_ip4 (bytes_hex (toy_lh 2)) = .ok () :=
  (claim_C3 toyHasher toy_ip4 (bytes_hex (toy_lh 2)) [toy_lh 3, toy_n01]
    toy_root4 (toy_lh 2) (by decide) (by decide) (by decide) (by decide)
    (by decide) (by decide)).2.mpr (by decide)

/-- C6: the consistency edge cases, in checked order: size regression,
equal sizes (proof must be empty, then plain root comparison, with no
hashing — the result is independent of the hasher), zero old size (proof
must be empty, then unconditional pass), and otherwise a non-empty proof
is required. -/
theorem claim_C6 (hasher hasher' : Hasher) (s1 s2 : Nat) (proof : List String)
    (r1 r2 : String) (b1 b2 : Bytes) (bap : List Bytes)
    (hd1 : bytes_fromhex r1 = some b1) (hd2 : bytes_fromhex r2 = some b2)
    (hd3 : fromhexList proof = some bap) :
    (s2 < s1 → verify_consistency hasher (s1, s2) proof (r1, r2) =
      .error (.valueError
        ("size2 (" ++ toString s2 ++ ") < size1 (" ++ toString s1 ++ ")"))) ∧
    (s1 = s2 → bap ≠ [] → verify_consistency hasher (s1, s2) proof (r1, r2) =
      .error (.valueError "size1=size2, but bytearray_proof is not empty")) ∧
    (s1 = s2 → bap = [] →
      ((verify_consistency hasher (s1, s2) proof (r1, r2) = .ok () ↔ b1 = b2) ∧
        (b1 ≠ b2 → verify_consistency hasher (s1, s2) proof (r1, r2) =
          .error (.rootMismatch b2 b1)))) ∧
    (s1 = 0 → 0 < s2 → bap ≠ [] → verify_consistency hasher (s1, s2) proof (r1, r2) =
      .error (.valueError
        ("expected empty bytearray_proof, but got " ++
          toString bap.length ++ " components"))) ∧
    (s1 = 0 → 0 < s2 → bap = [] →
      verify_consistency hasher (s1, s2) proof (r1, r2) = .ok ()) ∧
    (0 < s1 → s1 < s2 → bap = [] → verify_consistency hasher (s1, s2) proof (r1, r2) =
      .error (.valueError "empty bytearray_proof")) ∧
    ((s1 = s2 ∨ s1 = 0) → verify_consistency hasher (s1, s2) proof (r1, r2) =
      verify_consistency hasher' (s1, s2) proof (r1, r2)) := by
  have hdec :=
    verify_consistency_decoded hasher (s1, s2) proof (r1, r2) b1 b2 bap hd1 hd2 hd3
  have hdec' :=
    verify_consistency_decoded hasher' (s1, s2) proof (r1, r2) b1 b2 bap hd1 hd2 hd3
  refine ⟨?_, ?_, ?_, ?_, ?_, ?_, ?_⟩
  · intro h
    rw [hdec]
    exact vcs_regression hasher (s1, s2) bap b1 b2 h
  · intro h1 h2
    rw [hdec]
    exact vcs_equal_nonempty hasher (s1, s2) bap b1 b2 h1 h2
  · intro h1 h2
    rw [hdec, vcs_equal_empty hasher (s1, s2) bap b1 b2 h1 h2]
    exact ⟨verify_match_ok_iff b1 b2, fun hne => verify_match_ne b1 b2 hne⟩
  · intro h0 hs2 h2
    rw [hdec]
    exact vcs_zero_nonempty hasher (s1, s2) bap b1 b2 h0 (by omega) h2
  · intro h0 hs2 h2
    rw [hdec]
    exact vcs_zero_empty hasher (s1, s2) bap b1 b2 h0 (by omega) h2
  · intro h0 h12 h2
    rw [hdec]
    exact vcs_empty_proof hasher (s1, s2) bap b1 b2 h0 h12 h2
  · intro hor
    rw [hdec, hdec']
    by_cases heq : s1 = s2
    · by_cases h2 : bap = []
      · rw [vcs_equal_empty hasher (s1, s2) bap b1 b2 heq h2,
          vcs_equal_empty hasher' (s1, s2) bap b1 b2 heq h2]
      · rw [vcs_equal_nonempty hasher (s1, s2) bap b1 b2 heq h2,
          vcs_equal_nonempty hasher' (s1, s2) bap b1 b2 heq h2]
    · have h0 : s1 = 0 := by
        rcases hor with h | h
        · exact absurd h heq
        · exact h
      by_cases h2 : bap = []
      · rw [vcs_zero_empty hasher (s1, s2) bap b1 b2 h0 heq h2,
          vcs_zero_empty hasher' (s1, s2) bap b1 b2 h0 heq h2]
      · rw [vcs_zero_nonempty hasher (s1, s2) bap b1 b2 h0 heq h2,
          vcs_zero_nonempty hasher' (s1, s2) bap b1 b2 h0 heq h2]

/-- Witness for C6: equal sizes, empty proof, differing roots give
`RootMismatchError`. -/
theorem claim_C6_witness :
    verify_consistency toyHasher (1, 1) [] ("00", "01") =
      .error (.rootMismatch [1] [0]) :=
  ((claim_C6 toyHasher toyHasher 1 1 [] "00" "01" [0] [1] []
    (by decide) (by decide) (by decide)).2.2.1 rfl rfl).2 (by decide)

/-- C2: for `0 < oldSize < newSize` with a non-empty proof, the core uses
`(inner, border)` from `decomp_incl_proof(oldSize - 1, newSize)` with
`shift` subtracted from `inner`; the source's `shift` is the exponent of
the largest power-of-two divisor of `oldSize`; the seed/start selection
triggers exactly when `oldSize` is a power of two; and the call fails
with the wrong-proof-size `ValueError` iff
`len(proof) != start + inner + border`. -/
theorem claim_C2 (hasher : Hasher) (s1 s2 : Nat) (proof : List String)
    (r1 r2 : String) (b1 b2 : Bytes) (bap : List Bytes)
    (hd1 : bytes_fromhex r1 = some b1) (hd2 : bytes_fromhex r2 = some b2)
    (hd3 : fromhexList proof = some bap)
    (h0 : 0 < s1) (h12 : s1 < s2) (hne : bap ≠ []) :
    cons_inner s1 s2 = (decomp_incl_proof (s1 - 1) s2).1 - cons_shift s1 ∧
    cons_border s1 s2 = (decomp_incl_proof (s1 - 1) s2).2 ∧
    (2 ^ cons_shift s1 ∣ s1 ∧ ¬ 2 ^ (cons_shift s1 + 1) ∣ s1) ∧
    ((s1 = 1 <<< cons_shift s1) ↔ ∃ k, s1 = 2 ^ k) ∧
    cons_seed s1 bap b1 = (if s1 = 1 <<< cons_shift s1 then b1 else bap.headD []) ∧
    cons_start s1 = (if s1 = 1 <<< cons_shift s1 then 0 else 1) ∧
    (verify_consistency hasher (s1, s2) proof (r1, r2) =
        .error (.valueError
          ("wrong bytearray_proof size " ++ toString bap.length ++ ", want " ++
            toString (cons_start s1 + cons_inner s1 s2 + cons_border s1 s2))) ↔
      bap.length ≠ cons_start s1 + cons_inner s1 s2 + cons_border s1 s2) := by
  have hsh : cons_shift s1 = ctz s1 := shift_eq_ctz s1 h0
  refine ⟨rfl, rfl, ?_, ?_, rfl, rfl, ?_⟩
  · rw [hsh]
    exact ⟨ctz_pow_dvd s1, ctz_pow_succ_not_dvd s1 h0⟩
  · rw [Nat.one_shiftLeft, hsh]
    exact eq_two_pow_ctz_iff s1 h0
  · rw [verify_consistency_decoded hasher (s1, s2) proof (r1, r2) b1 b2 bap hd1 hd2 hd3,
      vcs_algo hasher (s1, s2) bap b1 b2 h0 h12 hne]
    constructor
    · intro herr
      by_contra hc
      rcases vca_result_cases hasher s1 s2 bap b1 b2 hc with hok | ⟨e, c, hrm⟩
      · rw [hok] at herr
        exact Except.noConfusion herr
      · rw [hrm] at herr
        injection herr with h'
        exact PyExc.noConfusion h'
    · intro hlen
      exact vca_wrong_size hasher s1 s2 bap b1 b2 hlen

/-- Witness for C2: `oldSize = 2`, `newSize = 3`, a 2-element proof where
1 is required fails with the wrong-size message. -/
theorem claim_C2_witness :
    verify_consistency toyHasher (2, 3) ["00", "01"] ("0a", "0b") =
      .error (.valueError
        ("wrong bytearray_proof size " ++ toString (2 : Nat) ++ ", want " ++
          toString (cons_start 2 + cons_inner 2 3 + cons_border 2 3))) :=
  ((claim_C2 toyHasher 2 3 ["00", "01"] "0a" "0b" [10] [11] [[0], [1]]
    (by decide) (by decide) (by decide) (by decide) (by decide)
    (by decide)).2.2.2.2.2.2).mpr (by decide)

/-- C1: once the guards and the proof-size check pass, `verify_consistency`
succeeds iff both chains match: the old-root branch chains the selected
seed with `chain_inner_right` (element on the left only at 1 bits of
`(oldSize - 1) >> shift`) through the first `inner` remaining elements
then `chain_border_right`, and must equal `oldRoot`; the new-root branch
chains the same seed and elements with the full `chain_inner` rule then
the same border, and must equal `newRoot`. -/
theorem claim_C1 (hasher : Hasher) (s1 s2 : Nat) (proof : List String)
    (r1 r2 : String) (b1 b2 : Bytes) (bap : List Bytes)
    (hd1 : bytes_fromhex r1 = some b1) (hd2 : bytes_fromhex r2 = some b2)
    (hd3 : fromhexList proof = some bap)
    (h0 : 0 < s1) (h12 : s1 < s2) (hne : bap ≠ [])
    (hlen : bap.length = cons_start s1 + cons_inner s1 s2 + cons_border s1 s2) :
    verify_consistency hasher (s1, s2) proof (r1, r2) = .ok () ↔
      (chain_border_right hasher
          (chain_inner_right hasher (cons_seed s1 bap b1)
            ((bap.drop (cons_start s1)).take (cons_inner s1 s2))
            ((s1 - 1) >>> cons_shift s1))
          ((bap.drop (cons_start s1)).drop (cons_inner s1 s2)) = b1 ∧
        chain_border_right hasher
          (chain_inner hasher (cons_seed s1 bap b1)
            ((bap.drop (cons_start s1)).take (cons_inner s1 s2))
            ((s1 - 1) >>> cons_shift s1))
          ((bap.drop (cons_start s1)).drop (cons_inner s1 s2)) = b2) := by
  rw [verify_consistency_decoded hasher (s1, s2) proof (r1, r2) b1 b2 bap hd1 hd2 hd3,
    vcs_algo hasher (s1, s2) bap b1 b2 h0 h12 hne]
  exact vca_ok_iff hasher s1 s2 bap b1 b2 hlen

/-- Witness for C1: the spec's size-1-to-size-2 scenario with the toy
hasher: old root is the leaf hash of leaf 0, the proof is the leaf hash
of leaf 1, and verification passes. -/
theorem claim_C1_witness :
    verify_consistency toyHasher (1, 2) [bytes_hex (toy_lh 1)]
      (bytes_hex (toy_lh 0), bytes_hex toy_root2) = .ok () :=
  (claim_C1 toyHasher 1 2 [bytes_hex (toy_lh 1)] (bytes_hex (toy_lh 0))
    (bytes_hex toy_root2) (toy_lh 0) toy_root2 [toy_lh 1]
    (by decide) (by decide) (by decide) (by decide) (by decide) (by decide)
    (by decide)).mpr ⟨by decide, by decide⟩

/-- C10: both entry points hex-decode every root/proof-element string
(and, for inclusion, the leaf-hash string) before any validation, so any
non-hex string makes the call fail with the decoding error — for
`verify_consistency` even when `newSize < oldSize` (the sizes here are
fully unconstrained), preempting the `SizeRegression` failure. -/
theorem claim_C10 (hasher : Hasher) (sizes : Nat × Nat) (proof : List String)
    (roots : String × String) (ip : InclusionProof) (leaf_hash : String) :
    ((bytes_fromhex roots.1 = none ∨ bytes_fromhex roots.2 = none ∨
        ∃ e ∈ proof, bytes_fromhex e = none) →
      verify_consistency hasher sizes proof roots = .error .hexError) ∧
    ((∃ e ∈ ip.hashes, bytes_fromhex e = none) ∨ bytes_fromhex ip.rootHash = none ∨
        bytes_fromhex leaf_hash = none →
      verify_inclusion hasher ip leaf_hash = .error .hexError) := by
  constructor
  · intro h
    rcases h with h | h | h
    · cases hb : bytes_fromhex roots.2 <;> cases hc : fromhexList proof <;>
        simp [verify_consistency, h, hb, hc]
    · cases ha : bytes_fromhex roots.1 <;> cases hc : fromhexList proof <;>
        simp [verify_consistency, h, ha, hc]
    · have hc := fromhexList_eq_none proof h
      cases ha : bytes_fromhex roots.1 <;> cases hb : bytes_fromhex roots.2 <;>
        simp [verify_consistency, ha, hb, hc]
  · intro h
    rcases h with h | h | h
    · have hc := fromhexList_eq_none ip.hashes h
      simp [verify_inclusion, hc]
    · cases ha : fromhexList ip.hashes <;> simp [verify_inclusion, h, ha]
    · cases ha : fromhexList ip.hashes <;> cases hb : bytes_fromhex ip.rootHash <;>
        simp [verify_inclusion, h, ha, hb]

/-- Witness for C10: a non-hex root with `newSize < oldSize` still fails
with the decoding error, not `SizeRegression`; a non-hex inclusion root
likewise. -/
theorem claim_C10_witness :
    verify_consistency toyHasher (5, 3) ["00"] ("zz", "00") = .error .hexError ∧
    verify_inclusion toyHasher ⟨0, 1, [], "xx"⟩ "00" = .error .hexError :=
  ⟨(claim_C10 toyHasher (5, 3) ["00"] ("zz", "00") ⟨0, 1, [], "xx"⟩ "00").1
      (Or.inl (by decide)),
   (claim_C10 toyHasher (5, 3) ["00"] ("zz", "00") ⟨0, 1, [], "xx"⟩ "00").2
      (Or.inr (Or.inl (by decide)))⟩

/-- C7 counterexample: the claim says every violated precondition is
delivered "as a typed failure result distinguishable per failure kind,
not as a raised generic exception".  In the code both an
`IndexOutOfRange`-kind failure and a `SizeRegression`-kind failure are
raised as Python's generic `ValueError` — the same exception class and
the same `PyExc.valueError` constructor here, distinguished only by
message text — so the failure kinds are not distinct result types. -/
theorem claim_C7_counterexample :
    verify_inclusion toyHasher ⟨5, 3, [], "00"⟩ "00" =
      .error (.valueError "index is beyond size: 5 >= 3") ∧
    verify_consistency toyHasher (5, 3) [] ("00", "01") =
      .error (.valueError "size2 (3) < size1 (5)") := by
  refine ⟨?_, ?_⟩ <;> decide

/-- C7 (amended): both entry points signal failure by raising exceptions
rather than returning result values: precondition violations raise the
generic `ValueError` carrying a kind-specific message, root mismatches
raise the dedicated `RootMismatchError` (storing both roots), and success
is a plain return. -/
theorem claim_C7_amended_thm (hasher : Hasher) (ip : InclusionProof)
    (leaf_hash r1 r2 : String) (s1 s2 : Nat) (proof : List String)
    (bap : List Bytes) (rootB leafB b1 b2 : Bytes) (bapc : List Bytes)
    (hi1 : fromhexList ip.hashes = some bap)
    (hi2 : bytes_fromhex ip.rootHash = some rootB)
    (hi3 : bytes_fromhex leaf_hash = some leafB)
    (hc1 : bytes_fromhex r1 = some b1) (hc2 : bytes_fromhex r2 = some b2)
    (hc3 : fromhexList proof = some bapc) :
    (ip.treeSize ≤ ip.logIndex →
      verify_inclusion hasher ip leaf_hash =
        .error (.valueError
          ("index is beyond size: " ++ toString ip.logIndex ++ " >= " ++
            toString ip.treeSize))) ∧
    (s2 < s1 →
      verify_consistency hasher (s1, s2) proof (r1, r2) =
        .error (.valueError
          ("size2 (" ++ toString s2 ++ ") < size1 (" ++ toString s1 ++ ")"))) ∧
    (∀ c e : Bytes, c ≠ e → verify_match c e = .error (.rootMismatch e c)) ∧
    (∀ c e : Bytes, c = e → verify_match c e = .ok ()) := by
  refine ⟨?_, ?_, verify_match_ne, verify_match_eq⟩
  · intro h
    rw [verify_inclusion_decoded hasher ip leaf_hash bap rootB leafB hi1 hi2 hi3,
      rfip_index_oob hasher ip.logIndex ip.treeSize leafB bap h]
  · intro h
    rw [verify_consistency_decoded hasher (s1, s2) proof (r1, r2) b1 b2 bapc hc1 hc2 hc3]
    exact vcs_regression hasher (s1, s2) bapc b1 b2 h

/-- Witness for the amended C7 at concrete failing inputs. -/
theorem claim_C7_witness :
    verify_inclusion toyHasher ⟨7, 2, [], "00"⟩ "01" =
      .error (.valueError "index is beyond size: 7 >= 2") ∧
    verify_consistency toyHasher (4, 2) [] ("00", "01") =
      .error (.valueError "size2 (2) < size1 (4)") :=
  ⟨(claim_C7_amended_thm toyHasher ⟨7, 2, [], "00"⟩ "01" "00" "01" 4 2 []
      [] [0] [1] [0] [1] [] (by decide) (by decide) (by decide) (by decide)
      (by decide) (by decide)).1 (by decide),
   (claim_C7_amended_thm toyHasher ⟨7, 2, [], "00"⟩ "01" "00" "01" 4 2 []
      [] [0] [1] [0] [1] [] (by decide) (by decide) (by decide) (by decide)
      (by decide) (by decide)).2.1 (by decide)⟩

set_option maxRecDepth 100000 in
/-- C8 counterexample: `compute_leaf_hash` applied to the body string
`"AA=="` does not hash the raw operand bytes: the code base64-decodes the
body internally (here to the single byte 0) before applying the leaf-hash
rule, so its digest differs from `hashLeaf` of the raw entry bytes of
`"AA=="`, refuting `computeLeafHash(rawEntryBytes) = hashLeaf(rawEntryBytes)`
with the transport decoding outside the operation. -/
theorem claim_C8_counterexample :
    compute_leaf_hash "AA==" ≠
      some (bytes_hex (DefaultHasher.hash_leaf (str_ascii "AA=="))) := by
  decide

/-- C8 (amended): `compute_leaf_hash(body)` base64-decodes `body` inside
the operation and returns the lowercase hex encoding of `hashLeaf`
(with SHA-256, the hard-coded digest) of the decoded entry bytes. -/
theorem claim_C8_amended_thm (body : String) (bs : Bytes)
    (h : b64decode body = some bs) :
    compute_leaf_hash body = some (bytes_hex (DefaultHasher.hash_leaf bs)) := by
  simp only [compute_leaf_hash, h]
  rfl

set_option maxRecDepth 100000 in
/-- Witness for the amended C8 at `body = "AA=="`. -/
theorem claim_C8_witness :
    b64decode "AA==" = some [0] ∧
    compute_leaf_hash "AA==" =
      some (bytes_hex (DefaultHasher.hash_leaf [0])) :=
  ⟨by decide, claim_C8_amended_thm "AA==" [0] (by decide)⟩

/-- C9 counterexample: the decomposition at `index = 2`, `size = 4` is
not `(inner, border) = (2, 0)`: `2 ^^^ 3 = 1` has bit length 1, not 2,
so `inner = 1` and `border = popcount (2 >>> 1) = 1`. -/
theorem claim_C9_counterexample : decomp_incl_proof 2 4 ≠ (2, 0) := by
  decide

set_option maxRecDepth 1000000 in
/-- C9 (amended): for `index = 2`, `size = 4` the decomposition yields
`inner = 1` (since `(2 xor 3).bit_length() == 1`) and `border = 1`
(popcount of `2 >> 1`), so the required proof length is still
`1 + 1 = 2`, and `verify_inclusion` recomputes the 32-byte SHA-256
4-leaf root `R4` exactly from such a 2-element proof. -/
theorem claim_C9_amended_thm :
    inner_proof_size 2 4 = 1 ∧
    decomp_incl_proof 2 4 = (1, 1) ∧
    (decomp_incl_proof 2 4).1 + (decomp_incl_proof 2 4).2 = 2 ∧
    c9_ip.hashes.length = 2 ∧
    verify_inclusion DefaultHasher c9_ip (bytes_hex (c9_lh 2)) = .ok () := by
  refine ⟨by decide, by decide, by decide, by decide, by decide⟩
